import Mathlib

/-!
Shallow embedding of the user-account service
(`src/backend/users/models.py`, `src/backend/users/schema.py`):
a user store, credential hashing, and the four API operations
`register`, `login`, `updateProfile`, `me`.
-/

namespace UserSvc

/-- JSON-compatible values, the content of `User.profile_json`
(`models.py`: `profile_json = models.JSONField(default=dict)`). -/
inductive Json where
  | null : Json
  | bool (b : Bool) : Json
  | num (n : Int) : Json
  | str (s : String) : Json
  | arr (elems : List Json) : Json
  | obj (fields : List (String × Json)) : Json

/-- The user record (`models.py` `class User(AbstractUser)`): Django's
`AbstractUser` supplies id, username, email, password (stored hashed),
first_name, last_name; the model adds avatar_url, primary_contact,
secondary_contact (all nullable) and profile_json. -/
structure User where
  id : Nat
  username : String
  email : String
  password_hash : String
  first_name : String
  last_name : String
  avatar_url : Option String
  primary_contact : Option String
  secondary_contact : Option String
  profile_json : Json

/-- The user table plus the id sequence the store assigns from. -/
structure Store where
  users : List User
  nextId : Nat

/-- The empty store. -/
def Store.empty : Store := { users := [], nextId := 0 }

/-- Modelled from the spec: the credential-hashing primitive
(Django's `make_password`, not part of the repository). Irreversible in the
real system; here an injective tagging so that verification against the
stored hash is definable. -/
def hashPassword (p : String) : String := "pbkdf2_sha256$" ++ p

/-- `user.check_password(password)`: compare the submitted plaintext against
the stored hash using the creation-time primitive. -/
def checkPassword (u : User) (p : String) : Bool :=
  u.password_hash == hashPassword p

/-- `UserModel.objects.filter(email=email).first()`. -/
def findByEmail (s : Store) (e : String) : Option User :=
  s.users.find? (fun u => u.email == e)

/-- Lookup of a user record by primary key (used to resolve the
authenticated request-context user). -/
def findById (s : Store) (i : Nat) : Option User :=
  s.users.find? (fun u => u.id == i)

/-- `django.contrib.auth.authenticate(username=..., password=...)` with the
default model backend: fetch the user whose `username` field equals the
submitted identifier and check the password; `none` when the user is absent
or the password does not verify. -/
def authenticate (s : Store) (username password : String) : Option User :=
  match s.users.find? (fun u => u.username == username) with
  | some u => if checkPassword u password then some u else none
  | none => none

/-- The failures a mutation can surface. The first three are the schema's
own `raise Exception(...)` messages (spec section 7). The last two are the
failure modes of `create_user` itself: `EmptyUsername` is the `ValueError`
Django's `UserManager.create_user` raises on a falsy username, and
`UsernameTaken` is the `IntegrityError` from the storage layer's unique
constraint on `username` that `User(AbstractUser)` in `models.py` entails. -/
inductive ApiError where
  | DuplicateEmail
  | InvalidCredentials
  | AuthenticationRequired
  | EmptyUsername
  | UsernameTaken
deriving Repr, DecidableEq

/-- Python string truthiness in `username or default`: `None` and `""` both
select the default. -/
def orDefault (v : Option String) (d : String) : String :=
  match v with
  | some x => if x == "" then d else x
  | none => d

/-- `email.split('@')[0]`: the characters of the email before its first
`'@'` (the whole string when there is none). -/
def emailLocalPart (e : String) : String :=
  ⟨e.data.takeWhile (fun c => c ≠ '@')⟩

/-- The username `create_user` receives: the mutate call's
`username or email.split('@')[0]` argument expression. -/
def resolvedUsername (username : Option String) (email : String) : String :=
  orDefault username (emailLocalPart email)

/-- `Register.mutate` (`schema.py`): fail with `DuplicateEmail` when a user
with the submitted email exists; otherwise call `create_user` with
`username or email.split('@')[0]`, `first_name or ''`, `last_name or ''`
and the password hashed. `create_user` itself fails — leaving the store
unchanged — when the resolved username is empty (`ValueError`) or already
taken (the `IntegrityError` of the unique `username` column that
`User(AbstractUser)` in `models.py` entails); otherwise it inserts the
record with a fresh id and the token pair is issued. Returns the mutation
result together with the store after the call. -/
def register (s : Store) (email password : String)
    (username first_name last_name : Option String) :
    Except ApiError (User × String × String) × Store :=
  if s.users.any (fun u => u.email == email) then
    (.error .DuplicateEmail, s)
  else if resolvedUsername username email == "" then
    (.error .EmptyUsername, s)
  else if s.users.any (fun u => u.username == resolvedUsername username email) then
    (.error .UsernameTaken, s)
  else
    let u : User :=
      { id := s.nextId
        username := resolvedUsername username email
        email := email
        password_hash := hashPassword password
        first_name := (first_name.getD "")
        last_name := (last_name.getD "")
        avatar_url := none
        primary_contact := none
        secondary_contact := none
        profile_json := .obj [] }
    (.ok (u, "access." ++ toString u.id, "refresh." ++ toString u.id),
      { users := s.users ++ [u], nextId := s.nextId + 1 })

/-- `Login.mutate` (`schema.py`): first `authenticate` treating the
submitted email as a username; on failure fall back to
`filter(email=email).first()` plus `check_password`; when both fail,
`InvalidCredentials`. Tokens are issued for the resulting user. The store
is not modified. -/
def login (s : Store) (email password : String) :
    Except ApiError (User × String × String) :=
  match authenticate s email password with
  | some u => .ok (u, "access." ++ toString u.id, "refresh." ++ toString u.id)
  | none =>
    match findByEmail s email with
    | some obj =>
      if checkPassword obj password then
        .ok (obj, "access." ++ toString obj.id, "refresh." ++ toString obj.id)
      else .error .InvalidCredentials
    | none => .error .InvalidCredentials

/-- The field-by-field effect of `UpdateProfile.mutate`'s
`for k, v in kwargs.items(): if hasattr(user, k) and v is not None:
setattr(user, k, v)` on the three declared arguments. -/
def applyProfileUpdates (u : User)
    (primary_contact secondary_contact avatar_url : Option String) : User :=
  { u with
    primary_contact :=
      match primary_contact with
      | some v => some v
      | none => u.primary_contact
    secondary_contact :=
      match secondary_contact with
      | some v => some v
      | none => u.secondary_contact
    avatar_url :=
      match avatar_url with
      | some v => some v
      | none => u.avatar_url }

/-- `user.save()`: persist the mutated record over the row with its id. -/
def save (s : Store) (u : User) : Store :=
  { s with users := s.users.map (fun w => if w.id == u.id then u else w) }

/-- `UpdateProfile.mutate` (`schema.py`): the caller is the request-context
user (`none` = anonymous, `some i` = authenticated as the stored user with
id `i`); anonymous callers fail with `AuthenticationRequired`; otherwise the
non-null supplied fields among primary_contact, secondary_contact,
avatar_url are written onto the caller's own record, which is saved. -/
def updateProfile (s : Store) (caller : Option Nat)
    (primary_contact secondary_contact avatar_url : Option String) :
    Except ApiError User × Store :=
  match caller with
  | none => (.error .AuthenticationRequired, s)
  | some cid =>
    match findById s cid with
    | none => (.error .AuthenticationRequired, s)
    | some u =>
      let u' := applyProfileUpdates u primary_contact secondary_contact avatar_url
      (.ok u', save s u')

/-- The caller-visible representation of a user: exactly the fields the
GraphQL `UserType` exposes (`schema.py`:
`fields = ('id', 'username', 'email', 'first_name', 'last_name',
'avatar_url', 'primary_contact', 'secondary_contact', 'profile_json')`). -/
structure UserView where
  id : Nat
  username : String
  email : String
  first_name : String
  last_name : String
  avatar_url : Option String
  primary_contact : Option String
  secondary_contact : Option String
  profile_json : Json

/-- Serialisation of a user record through `UserType`. -/
def toView (u : User) : UserView :=
  { id := u.id
    username := u.username
    email := u.email
    first_name := u.first_name
    last_name := u.last_name
    avatar_url := u.avatar_url
    primary_contact := u.primary_contact
    secondary_contact := u.secondary_contact
    profile_json := u.profile_json }

/-- `Query.resolve_me` (`schema.py`): `None` for an anonymous caller, the
caller's record otherwise, exposed through `UserType`. -/
def me (s : Store) (caller : Option Nat) : Option UserView :=
  match caller with
  | none => none
  | some cid => (findById s cid).map toView

/-- One API call, as dispatched by the mutation/query surface: the data each
operation reads from the request. -/
inductive Op where
  | register (email password : String) (username first_name last_name : Option String)
  | login (email password : String)
  | updateProfile (caller : Option Nat) (primary_contact secondary_contact avatar_url : Option String)
  | me (caller : Option Nat)

/-- The store after one API call (`login` and `me` never write). -/
def applyOp (s : Store) (op : Op) : Store :=
  match op with
  | .register e p un fn ln => (register s e p un fn ln).2
  | .login _ _ => s
  | .updateProfile c pc sc av => (updateProfile s c pc sc av).2
  | .me _ => s

/-- The store reached from the empty store by a sequence of API calls. -/
def runOps (ops : List Op) : Store :=
  ops.foldl applyOp Store.empty

/-- No two distinct records share an email. -/
def emailsUnique (s : Store) : Prop :=
  s.users.Pairwise (fun a b => a.email ≠ b.email)

/-- No two distinct records share a username. -/
def usernamesUnique (s : Store) : Prop :=
  s.users.Pairwise (fun a b => a.username ≠ b.username)

/-- No two distinct records share an id. -/
def idsUnique (s : Store) : Prop :=
  s.users.Pairwise (fun a b => a.id ≠ b.id)

/-- Every stored id is below the next id the store will assign. -/
def idsBelow (s : Store) : Prop :=
  ∀ u ∈ s.users, u.id < s.nextId

instance (s : Store) : Decidable (emailsUnique s) := by
  unfold emailsUnique; infer_instance

instance (s : Store) : Decidable (usernamesUnique s) := by
  unfold usernamesUnique; infer_instance

instance (s : Store) : Decidable (idsUnique s) := by
  unfold idsUnique; infer_instance

instance (s : Store) : Decidable (idsBelow s) := by
  unfold idsBelow; infer_instance

/-! ### Concrete fixtures used by witnesses and counterexamples -/

/-- A concrete registered user: the record `register` builds for
`register(email="a@x.com", password="p")`. -/
def u0 : User :=
  { id := 0
    username := "a"
    email := "a@x.com"
    password_hash := hashPassword "p"
    first_name := ""
    last_name := ""
    avatar_url := none
    primary_contact := none
    secondary_contact := none
    profile_json := .obj [] }

/-- A concrete one-user store holding `u0`. -/
def s0 : Store := { users := [u0], nextId := 1 }

/-! ### Helper lemmas -/

/-- A string with a non-empty left part of a concatenation is non-empty. -/
theorem append_ne_empty (a b : String) (h : 0 < a.length) : a ++ b ≠ "" := by
  intro hc
  have hl := congrArg String.length hc
  rw [String.length_append] at hl
  simp only [String.length_empty] at hl
  omega

/-- Under pairwise-distinct ids, two members of the list with the same id
are the same record. -/
theorem eq_of_mem_of_id_eq {l : List User} (hp : l.Pairwise (fun a b => a.id ≠ b.id))
    {u w : User} (hu : u ∈ l) (hw : w ∈ l) (h : w.id = u.id) : w = u := by
  by_contra hne
  exact (List.Pairwise.forall (fun _ _ h' => (h' ∘ Eq.symm : _)) hp hw hu hne) h

/-- Under pairwise-distinct emails, `find?` by email returns exactly the
member with that email. -/
theorem find?_email_eq {l : List User} (hp : l.Pairwise (fun a b => a.email ≠ b.email))
    {u : User} (hu : u ∈ l) {e : String} (he : u.email = e) :
    l.find? (fun w => w.email == e) = some u := by
  induction l with
  | nil => cases hu
  | cons a as ih =>
    rcases List.mem_cons.mp hu with rfl | hmem
    · simp [List.find?, he]
    · have hne : a.email ≠ u.email :=
        (List.pairwise_cons.mp hp).1 u hmem
      have hne' : (a.email == e) = false := by
        simp [he ▸ hne]
      simp only [List.find?, hne']
      exact ih (List.pairwise_cons.mp hp).2 hmem

/-! ### Claim theorems -/

/-- C1: registering with an email that already belongs to a stored user
fails with `DuplicateEmail`, and the store after the call is exactly the
store before it — no record is created. -/
theorem register_duplicate_email (s : Store) (e p : String)
    (un fn ln : Option String) (u : User) (hu : u ∈ s.users) (he : u.email = e) :
    (register s e p un fn ln).1 = .error .DuplicateEmail ∧
      (register s e p un fn ln).2 = s := by
  have h : s.users.any (fun w => w.email == e) = true :=
    List.any_eq_true.mpr ⟨u, hu, by simp [he]⟩
  constructor <;> simp [register, h]

/-- C1 witness: the duplicate-email failure at a concrete store. -/
theorem register_duplicate_email_witness :
    (register s0 "a@x.com" "q" none none none).1 = .error .DuplicateEmail ∧
      (register s0 "a@x.com" "q" none none none).2 = s0 :=
  register_duplicate_email s0 "a@x.com" "q" none none none u0
    (by simp [s0]) rfl

/-- C2: whenever login fails — the submitted email matching no user, or a
matching user's password not verifying — the error is `InvalidCredentials`;
both causes are observably identical to the caller. -/
theorem login_failure_invalid_credentials (s : Store) (e p : String)
    (err : ApiError) (h : login s e p = .error err) :
    err = .InvalidCredentials := by
  unfold login at h
  cases ha : authenticate s e p with
  | some u => rw [ha] at h; cases h
  | none =>
    rw [ha] at h
    cases hf : findByEmail s e with
    | some obj =>
      rw [hf] at h
      by_cases hc : checkPassword obj p
      · simp [hc] at h
      · simp [hc] at h; exact h.symm
    | none => rw [hf] at h; cases h; rfl

/-- C2 witness: a concrete failing login produces `InvalidCredentials`. -/
theorem login_failure_invalid_credentials_witness :
    login Store.empty "nonexistent@x.com" "anything"
        = .error .InvalidCredentials ∧
      ApiError.InvalidCredentials = ApiError.InvalidCredentials :=
  ⟨rfl, login_failure_invalid_credentials Store.empty "nonexistent@x.com"
    "anything" .InvalidCredentials rfl⟩

/-- C7: an `updateProfile` call by an anonymous caller fails with
`AuthenticationRequired` and returns the store unchanged, for every store
and every combination of arguments. -/
theorem updateProfile_anonymous (s : Store) (pc sc av : Option String) :
    updateProfile s none pc sc av = (.error .AuthenticationRequired, s) := rfl

/-- C10: whenever a register call whose username argument is omitted
(`none`) or null/empty (Python falsiness gives `some ""` the same meaning)
creates a user, that user's username is the part of the email before its
first `'@'`; omitted first/last names are stored as empty strings. -/
theorem register_default_username (s : Store) (e p : String) (un : Option String)
    (u : User) (a r : String) (hun : un = none ∨ un = some "")
    (hok : (register s e p un none none).1 = .ok (u, a, r)) :
    u.username = String.mk (e.data.takeWhile (fun c => c ≠ '@')) ∧
      u.first_name = "" ∧ u.last_name = "" := by
  have hu : u.username = resolvedUsername un e ∧
      u.first_name = "" ∧ u.last_name = "" := by
    unfold register at hok
    split at hok
    · cases hok
    · split at hok
      · cases hok
      · split at hok
        · cases hok
        · cases hok
          exact ⟨rfl, rfl, rfl⟩
  refine ⟨?_, hu.2.1, hu.2.2⟩
  rw [hu.1]
  rcases hun with rfl | rfl <;> simp [resolvedUsername, orDefault, emailLocalPart]

/-- C10 witness: registering `a@x.com` with no username creates a user with
username `"a"` and empty first/last names. -/
theorem register_default_username_witness :
    (register Store.empty "a@x.com" "p" none none none).1
        = .ok (u0, "access." ++ toString 0, "refresh." ++ toString 0) ∧
      u0.username = String.mk ("a@x.com".data.takeWhile (fun c => c ≠ '@')) ∧
      u0.first_name = "" ∧ u0.last_name = "" :=
  ⟨by rfl, register_default_username Store.empty "a@x.com" "p" none u0
    ("access." ++ toString 0) ("refresh." ++ toString 0) (Or.inl rfl) (by rfl)⟩

/-- C8: the caller-visible representation (the `UserType` projection used by
every operation's user output) carries exactly the nine exposed fields and
is independent of `password_hash`: rewriting any user's stored hash — in a
single record or across a whole store read through `me` — leaves the
visible representation unchanged. -/
theorem password_hash_not_exposed :
    (∀ (u : User) (h : String), toView { u with password_hash := h } = toView u) ∧
      (∀ (s : Store) (c : Option Nat) (h : String),
        me { s with users := s.users.map (fun u => { u with password_hash := h }) } c
          = me s c) := by
  refine ⟨fun u h => rfl, fun s c h => ?_⟩
  cases c with
  | none => rfl
  | some cid =>
    simp only [me, findById, List.find?_map]
    have hcomp : ((fun u : User => u.id == cid) ∘
        (fun u : User => { u with password_hash := h }))
          = fun u : User => u.id == cid := rfl
    rw [hcomp]
    cases s.users.find? (fun u : User => u.id == cid) with
    | none => rfl
    | some u => rfl

/-- A single registration seeding the store with the record `u0`
(email `a@x.com`, defaulted username `a`). -/
def seedOps : List Op := [.register "a@x.com" "p" none none none]

/-- C4 counterexample: in the store reached by `seedOps`, the email
`a@y.com` is not present, yet registering it fails — its defaulted
username `"a"` collides with the existing record's unique username, so
`create_user` raises instead of creating — and no record is added. -/
theorem register_fresh_email_counterexample :
    (runOps seedOps).users.map (fun u => (u.email, u.username)) = [("a@x.com", "a")] ∧
      (runOps seedOps).users.any (fun u => u.email == "a@y.com") = false ∧
      (register (runOps seedOps) "a@y.com" "q" none none none).1
        = .error .UsernameTaken ∧
      (register (runOps seedOps) "a@y.com" "q" none none none).2 = runOps seedOps :=
  ⟨by rfl, by rfl, by rfl, by rfl⟩

/-- C4 (amended): registering with an email not present in the store
succeeds provided the resolved username — the supplied one, else the
email's local part — is non-empty and not already in use; it then returns
a user whose email is the submitted email and whose id is newly assigned —
distinct from every pre-existing user's id — together with an access token
and a refresh token. -/
theorem register_fresh_email (s : Store) (e p : String)
    (un fn ln : Option String)
    (hfresh : ∀ u ∈ s.users, u.email ≠ e)
    (hname : resolvedUsername un e ≠ "")
    (hnametaken : ∀ u ∈ s.users, u.username ≠ resolvedUsername un e)
    (hids : idsBelow s) :
    ∃ u a r, (register s e p un fn ln).1 = .ok (u, a, r) ∧
      u.email = e ∧ (∀ w ∈ s.users, w.id ≠ u.id) := by
  have h : s.users.any (fun w => w.email == e) = false :=
    List.any_eq_false.mpr (fun u hu => by simp [hfresh u hu])
  have hn : (resolvedUsername un e == "") = false := by
    simp [hname]
  have ht : s.users.any (fun w => w.username == resolvedUsername un e) = false :=
    List.any_eq_false.mpr (fun u hu => by simp [hnametaken u hu])
  refine ⟨{ id := s.nextId
            username := resolvedUsername un e
            email := e
            password_hash := hashPassword p
            first_name := (fn.getD "")
            last_name := (ln.getD "")
            avatar_url := none
            primary_contact := none
            secondary_contact := none
            profile_json := .obj [] },
    "access." ++ toString s.nextId, "refresh." ++ toString s.nextId,
    ?_, rfl, ?_⟩
  · simp [register, h, hn, ht]
  · intro w hw
    exact Nat.ne_of_lt (hids w hw)

/-- C4 witness: registering `b@x.com` against the one-user store (fresh
email, fresh non-empty username `b`) succeeds with the fresh id 1. -/
theorem register_fresh_email_witness :
    ∃ u a r, (register s0 "b@x.com" "q" none none none).1 = .ok (u, a, r) ∧
      u.email = "b@x.com" ∧ (∀ w ∈ s0.users, w.id ≠ u.id) :=
  register_fresh_email s0 "b@x.com" "q" none none none
    (by decide) (by decide) (by decide) (by decide)

/-- C3: for an authenticated caller, `updateProfile` overwrites exactly the
supplied non-null fields among primary_contact, secondary_contact and
avatar_url on the caller's own record; omitted (null) fields, the record's
identity and credential fields (id, username, email, password_hash,
first_name, last_name, profile_json), and every stored record with a
different id are unchanged. -/
theorem updateProfile_only_supplied_fields (s : Store) (cid : Nat) (u : User)
    (pc sc av : Option String) (hu : findById s cid = some u) :
    ∃ u', (updateProfile s (some cid) pc sc av).1 = .ok u' ∧
      u'.id = u.id ∧ u'.username = u.username ∧ u'.email = u.email ∧
      u'.password_hash = u.password_hash ∧ u'.first_name = u.first_name ∧
      u'.last_name = u.last_name ∧ u'.profile_json = u.profile_json ∧
      (pc = none → u'.primary_contact = u.primary_contact) ∧
      (∀ v, pc = some v → u'.primary_contact = some v) ∧
      (sc = none → u'.secondary_contact = u.secondary_contact) ∧
      (∀ v, sc = some v → u'.secondary_contact = some v) ∧
      (av = none → u'.avatar_url = u.avatar_url) ∧
      (∀ v, av = some v → u'.avatar_url = some v) ∧
      (updateProfile s (some cid) pc sc av).2.users
        = s.users.map (fun w => if w.id == u'.id then u' else w) ∧
      (∀ w ∈ s.users, w.id ≠ u.id →
        w ∈ (updateProfile s (some cid) pc sc av).2.users) := by
  refine ⟨applyProfileUpdates u pc sc av, ?_, ?_, rfl, rfl, rfl, rfl, rfl, rfl,
    ?_, ?_, ?_, ?_, ?_, ?_, ?_, ?_⟩
  · simp [updateProfile, hu]
  · cases pc <;> cases sc <;> cases av <;> rfl
  · rintro rfl; rfl
  · rintro v rfl; rfl
  · rintro rfl; cases pc <;> rfl
  · rintro v rfl; cases pc <;> rfl
  · rintro rfl; cases pc <;> cases sc <;> rfl
  · rintro v rfl; cases pc <;> cases sc <;> rfl
  · simp [updateProfile, hu, save]
  · intro w hw hne
    simp only [updateProfile, hu, save]
    have hid : (w.id == (applyProfileUpdates u pc sc av).id) = false := by
      have : (applyProfileUpdates u pc sc av).id = u.id := by
        cases pc <;> cases sc <;> cases av <;> rfl
      simp [this, hne]
    exact List.mem_map.mpr ⟨w, hw, by simp [hid]⟩

/-- C3 witness: supplying only `avatar_url` on the one-user store changes
only that field of the caller's record. -/
theorem updateProfile_only_supplied_fields_witness :
    ∃ u', (updateProfile s0 (some 0) none none (some "http://x/img.png")).1 = .ok u' ∧
      u'.id = u0.id ∧ u'.username = u0.username ∧ u'.email = u0.email ∧
      u'.password_hash = u0.password_hash ∧ u'.first_name = u0.first_name ∧
      u'.last_name = u0.last_name ∧ u'.profile_json = u0.profile_json ∧
      ((none : Option String) = none → u'.primary_contact = u0.primary_contact) ∧
      (∀ v, (none : Option String) = some v → u'.primary_contact = some v) ∧
      ((none : Option String) = none → u'.secondary_contact = u0.secondary_contact) ∧
      (∀ v, (none : Option String) = some v → u'.secondary_contact = some v) ∧
      ((some "http://x/img.png" : Option String) = none → u'.avatar_url = u0.avatar_url) ∧
      (∀ v, (some "http://x/img.png" : Option String) = some v → u'.avatar_url = some v) ∧
      (updateProfile s0 (some 0) none none (some "http://x/img.png")).2.users
        = s0.users.map (fun w => if w.id == u'.id then u' else w) ∧
      (∀ w ∈ s0.users, w.id ≠ u0.id →
        w ∈ (updateProfile s0 (some 0) none none (some "http://x/img.png")).2.users) :=
  updateProfile_only_supplied_fields s0 0 u0 none none (some "http://x/img.png") rfl

/-- Saving a record over a table with pairwise-distinct ids makes the lookup
of that id return the saved record. -/
theorem find?_save_eq {l : List User} (hp : l.Pairwise (fun a b => a.id ≠ b.id))
    {u u' : User} (hu : u ∈ l) (hid : u'.id = u.id) :
    (l.map (fun w => if w.id == u'.id then u' else w)).find? (fun w => w.id == u.id)
      = some u' := by
  induction l with
  | nil => cases hu
  | cons a as ih =>
    rcases List.mem_cons.mp hu with rfl | hmem
    · simp [List.find?, hid]
    · have hne : a.id ≠ u.id := (List.pairwise_cons.mp hp).1 u hmem
      have h1 : (a.id == u'.id) = false := by simp [hid, hne]
      have h2 : (a.id == u.id) = false := by simp [hne]
      have hf : (if (a.id == u'.id) = true then u' else a) = a := by simp [h1]
      rw [List.map_cons, hf, List.find?_cons_of_neg _ (by simp [h2])]
      exact ih (List.pairwise_cons.mp hp).2 hmem

/-- C9: writing any JSON-compatible value into a user's `profile_json` and
saving the record makes a subsequent read of that user return exactly that
value: the store round-trip is the identity on `profile_json`. -/
theorem profile_json_roundtrip (s : Store) (u : User) (v : Json)
    (hu : u ∈ s.users) (hids : idsUnique s) :
    (findById (save s { u with profile_json := v }) u.id).map User.profile_json
      = some v := by
  have hid : ({ u with profile_json := v } : User).id = u.id := rfl
  have h := find?_save_eq hids hu hid
  simp only [findById, save]
  rw [h]
  rfl

/-- C9 witness: the round-trip at a concrete store and value. -/
theorem profile_json_roundtrip_witness :
    (findById (save s0 { u0 with profile_json := Json.str "hello" }) u0.id).map
        User.profile_json = some (Json.str "hello") :=
  profile_json_roundtrip s0 u0 (Json.str "hello") (by simp [s0]) (by decide)

/-- A reachable scenario in which the submitted login email collides with
another user's username: the first registration picks the second user's
future email as its username, both with password `"p"`. -/
def loginCexOps : List Op :=
  [.register "a@x.com" "p" (some "b@x.com") none none,
   .register "b@x.com" "p" none none none]

/-- C5 counterexample: in the store reached by `loginCexOps`, the user with
email `b@x.com` was registered with password `p`, yet
`login("b@x.com", "p")` succeeds with the OTHER user — the one whose
username is `b@x.com` — because the username-authentication attempt runs
first; the claim's "returns that user" fails. -/
theorem login_returns_username_match_counterexample :
    (runOps loginCexOps).users.map
        (fun u => (u.id, u.email, u.username, u.password_hash))
      = [(0, "a@x.com", "b@x.com", hashPassword "p"),
         (1, "b@x.com", "b", hashPassword "p")] ∧
      (login (runOps loginCexOps) "b@x.com" "p").toOption.map
          (fun t => t.1.email)
        = some "a@x.com" :=
  ⟨by rfl, by rfl⟩

/-- C5 (amended): when the store (with pairwise-distinct emails) holds a
user registered with email `e` and password `p`, `login e p` succeeds with
non-empty access and refresh tokens; the returned user is the result of the
username-authentication attempt when that succeeds, and exactly the user
with email `e` when it fails. -/
theorem login_registered_email (s : Store) (e p : String) (u : User)
    (hemails : emailsUnique s) (hu : u ∈ s.users) (he : u.email = e)
    (hp : u.password_hash = hashPassword p) :
    ∃ u' a r, login s e p = .ok (u', a, r) ∧ a ≠ "" ∧ r ≠ "" ∧
      (∀ w, authenticate s e p = some w → u' = w) ∧
      (authenticate s e p = none → u' = u) := by
  cases ha : authenticate s e p with
  | some w =>
    refine ⟨w, "access." ++ toString w.id, "refresh." ++ toString w.id,
      ?_, ?_, ?_, ?_, ?_⟩
    · simp [login, ha]
    · exact append_ne_empty _ _ (by decide)
    · exact append_ne_empty _ _ (by decide)
    · intro w' hw'; cases hw'; rfl
    · intro h; cases h
  | none =>
    have hf : findByEmail s e = some u := find?_email_eq hemails hu he
    have hc : checkPassword u p = true := by simp [checkPassword, hp]
    refine ⟨u, "access." ++ toString u.id, "refresh." ++ toString u.id,
      ?_, ?_, ?_, ?_, fun _ => rfl⟩
    · simp [login, ha, hf, hc]
    · exact append_ne_empty _ _ (by decide)
    · exact append_ne_empty _ _ (by decide)
    · intro w hw; cases hw

/-- C5 witness: the amended login behaviour at the concrete one-user
store. -/
theorem login_registered_email_witness :
    ∃ u' a r, login s0 "a@x.com" "p" = .ok (u', a, r) ∧ a ≠ "" ∧ r ≠ "" ∧
      (∀ w, authenticate s0 "a@x.com" "p" = some w → u' = w) ∧
      (authenticate s0 "a@x.com" "p" = none → u' = u0) :=
  login_registered_email s0 "a@x.com" "p" u0 (by decide) (by simp [s0]) rfl rfl

/-! ### Reachable-state invariants -/

/-- The store invariant the operations maintain: ids below the sequence
counter, pairwise-distinct ids, pairwise-distinct emails, and
pairwise-distinct usernames. -/
def Inv (s : Store) : Prop :=
  idsBelow s ∧ idsUnique s ∧ emailsUnique s ∧ usernamesUnique s

theorem inv_empty : Inv Store.empty :=
  ⟨fun _ h => absurd h (List.not_mem_nil _), List.Pairwise.nil,
    List.Pairwise.nil, List.Pairwise.nil⟩

theorem register_preserves_inv (s : Store) (e p : String)
    (un fn ln : Option String) (h : Inv s) : Inv (register s e p un fn ln).2 := by
  by_cases hdup : s.users.any (fun u => u.email == e) = true
  · simpa [register, hdup] using h
  · have hfalse : s.users.any (fun u => u.email == e) = false :=
      Bool.eq_false_iff.mpr hdup
    have hnot : ∀ u ∈ s.users, u.email ≠ e := by
      intro u hu
      have := List.any_eq_false.mp hfalse u hu
      simpa using this
    by_cases hempty : (resolvedUsername un e == "") = true
    · simpa [register, hfalse, hempty] using h
    · have hempty' : (resolvedUsername un e == "") = false :=
        Bool.eq_false_iff.mpr hempty
      by_cases htaken : s.users.any (fun u => u.username == resolvedUsername un e) = true
      · simpa [register, hfalse, hempty', htaken] using h
      · have htfalse : s.users.any (fun u => u.username == resolvedUsername un e) = false :=
          Bool.eq_false_iff.mpr htaken
        have hnotu : ∀ u ∈ s.users, u.username ≠ resolvedUsername un e := by
          intro u hu
          have := List.any_eq_false.mp htfalse u hu
          simpa using this
        obtain ⟨hb, hi, he, hn⟩ := h
        simp only [register, hfalse, hempty', htfalse, Bool.false_eq_true, if_false]
        refine ⟨?_, ?_, ?_, ?_⟩
        · intro w hw
          rcases List.mem_append.mp hw with h' | h'
          · exact Nat.lt_succ_of_lt (hb w h')
          · simp only [List.mem_singleton] at h'
            subst h'
            exact Nat.lt_succ_self _
        · refine List.pairwise_append.mpr ⟨hi, List.pairwise_singleton _ _, ?_⟩
          intro a ha b hb'
          simp only [List.mem_singleton] at hb'
          subst hb'
          exact Nat.ne_of_lt (hb a ha)
        · refine List.pairwise_append.mpr ⟨he, List.pairwise_singleton _ _, ?_⟩
          intro a ha b hb'
          simp only [List.mem_singleton] at hb'
          subst hb'
          exact hnot a ha
        · refine List.pairwise_append.mpr ⟨hn, List.pairwise_singleton _ _, ?_⟩
          intro a ha b hb'
          simp only [List.mem_singleton] at hb'
          subst hb'
          exact hnotu a ha

theorem updateProfile_preserves_inv (s : Store) (c : Option Nat)
    (pc sc av : Option String) (h : Inv s) :
    Inv (updateProfile s c pc sc av).2 := by
  cases c with
  | none => exact h
  | some cid =>
    cases hfind : findById s cid with
    | none => simpa [updateProfile, hfind] using h
    | some u =>
      obtain ⟨hb, hi, he, hn⟩ := h
      have hmem : u ∈ s.users := List.mem_of_find?_eq_some hfind
      set u' := applyProfileUpdates u pc sc av with hu'
      have hid' : u'.id = u.id := rfl
      have hemail' : u'.email = u.email := rfl
      have husername' : u'.username = u.username := rfl
      have hfid : ∀ w ∈ s.users,
          (if w.id == u'.id then u' else w).id = w.id := by
        intro w _
        by_cases hc : (w.id == u'.id) = true
        · have hcc : w.id = u'.id := by simpa using hc
          simp only [hc, if_true]
          exact hcc.symm
        · simp [hc]
      have hfemail : ∀ w ∈ s.users,
          (if w.id == u'.id then u' else w).email = w.email := by
        intro w hw
        by_cases hc : (w.id == u'.id) = true
        · have hcc : w.id = u'.id := by simpa using hc
          have hweq : w = u :=
            eq_of_mem_of_id_eq hi hmem hw (hcc.trans hid')
          simp only [hc, if_true]
          rw [hweq]
          exact hemail'
        · simp [hc]
      have hfusername : ∀ w ∈ s.users,
          (if w.id == u'.id then u' else w).username = w.username := by
        intro w hw
        by_cases hc : (w.id == u'.id) = true
        · have hcc : w.id = u'.id := by simpa using hc
          have hweq : w = u :=
            eq_of_mem_of_id_eq hi hmem hw (hcc.trans hid')
          simp only [hc, if_true]
          rw [hweq]
          exact husername'
        · simp [hc]
      simp only [updateProfile, hfind, save]
      refine ⟨?_, ?_, ?_, ?_⟩
      · intro w hw
        rcases List.mem_map.mp hw with ⟨x, hx, rfl⟩
        rw [hfid x hx]
        exact hb x hx
      · refine List.pairwise_map.mpr (hi.imp_of_mem ?_)
        intro a b ha hb' hne
        rw [hfid a ha, hfid b hb']
        exact hne
      · refine List.pairwise_map.mpr (he.imp_of_mem ?_)
        intro a b ha hb' hne
        rw [hfemail a ha, hfemail b hb']
        exact hne
      · refine List.pairwise_map.mpr (hn.imp_of_mem ?_)
        intro a b ha hb' hne
        rw [hfusername a ha, hfusername b hb']
        exact hne

theorem inv_applyOp (s : Store) (op : Op) (h : Inv s) : Inv (applyOp s op) := by
  cases op with
  | register e p un fn ln => exact register_preserves_inv s e p un fn ln h
  | login e p => exact h
  | updateProfile c pc sc av => exact updateProfile_preserves_inv s c pc sc av h
  | me c => exact h

theorem inv_foldl (ops : List Op) (s : Store) (h : Inv s) :
    Inv (ops.foldl applyOp s) := by
  induction ops generalizing s with
  | nil => exact h
  | cons op rest ih => exact ih _ (inv_applyOp s op h)

/-- C6: in every store reachable from the empty store by register, login,
updateProfile and me calls, no two distinct records share an email and no
two distinct records share a username: register rejects a taken email
before creating, `create_user` fails on a taken username, and
updateProfile cannot touch either field. -/
theorem reachable_emails_usernames_unique (ops : List Op) :
    emailsUnique (runOps ops) ∧ usernamesUnique (runOps ops) :=
  ⟨(inv_foldl ops Store.empty inv_empty).2.2.1,
    (inv_foldl ops Store.empty inv_empty).2.2.2⟩

end UserSvc
